import Mathlib

/-!
Verification of the tylang compiler front end (lexer, precedence-climbing
parser, AST-to-IR lowering, and the incremental JIT driver loop).

The embedding follows the sources that the Makefile actually builds:
`main.cpp` (driver + parser + the `Lexer`-object front end), `lexer/lexer.h`
and `lexer/lexer.cpp` (the `Lexer` member functions), and `codegen.cpp`
(the lowering of the AST classes declared in `ast.h`).

Conventions used throughout:
- C character/token codes are `Int`: `getc` results are 0..255, EOF is -1,
  and the lexer's token enum is tok_eof = -1, tok_def = -2, tok_extern = -3,
  tok_identifier = -4, tok_number = -5; any other character is returned as
  its own code.
- C `double` values are modelled as `ℚ`. Every numeric value appearing in
  the properties below (integers up to 7, 2.5, ...) is exactly representable
  as an IEEE-754 double, and the few arithmetic operations performed on them
  (+,-,* of small integers, string-to-double conversion of short decimal
  literals) are exact in double precision, so the rational model coincides
  with the C program on these values.  `mkRat`/`Rat.ofInt` are used instead
  of the `@[irreducible]` field operations so that everything evaluates.
- Recursion that is bounded by the C call stack (the comment-skipping
  recursion in `gettok`, the mutually recursive parser, the recursive
  lowering of expressions) carries an explicit `fuel : Nat` measuring the
  remaining stack depth; exhausting it models running out of stack.
-/

namespace Tylang

/-! ## C character classification (ctype.h semantics on `getc` results) -/

/-- C `isspace` on a `getc` result; false on EOF (-1). -/
def isspace (c : Int) : Bool := c = 32 || (9 ≤ c && c ≤ 13)

/-- C `isalpha` (ASCII letters); false on EOF (-1). -/
def isalpha (c : Int) : Bool := (65 ≤ c && c ≤ 90) || (97 ≤ c && c ≤ 122)

/-- C `isdigit`; false on EOF (-1). -/
def isdigit (c : Int) : Bool := 48 ≤ c && c ≤ 57

/-- C `isalnum`; false on EOF (-1). -/
def isalnum (c : Int) : Bool := isalpha c || isdigit c

/-! ## Lexer state (class `Lexer`, lexer/lexer.h)

`inp` is the unread part of the `FILE *` stream; `lastChar` is the
function-static `LastChar` of `Lexer::gettok` (initially `' '` = 32);
`identifierStr` and `numVal` are the member registers holding the payload of
the current identifier/number token; `curTok` is the member `CurTok`. -/

structure LexState where
  inp : List Char
  lastChar : Int
  identifierStr : String
  numVal : ℚ
  curTok : Int
deriving DecidableEq

/-- `Lexer::getNextChar`: `getc(fp)` — the next byte, or -1 at end of input. -/
def getNextChar : List Char → Int × List Char
  | [] => (-1, [])
  | c :: rest => (Int.ofNat c.toNat, rest)

/-- The `while (isspace(LastChar)) LastChar = getNextChar();` loop of
`Lexer::gettok`.  When input runs out the next read yields EOF, on which
`isspace` is false and the loop exits. -/
def skipSpaces : Int → List Char → Int × List Char
  | last, [] => if isspace last then (-1, []) else (last, [])
  | last, c :: rest =>
    if isspace last then skipSpaces (Int.ofNat c.toNat) rest else (last, c :: rest)

/-- The identifier loop of `Lexer::gettok`:
`while (isalnum((LastChar = getNextChar()))) IdentifierStr += LastChar;`.
Returns the accumulated string, the first non-alnum `LastChar`, and the
remaining input. -/
def identLoop (acc : String) : List Char → String × Int × List Char
  | [] => (acc, -1, [])
  | c :: rest =>
    if isalnum (Int.ofNat c.toNat) then identLoop (acc.push c) rest
    else (acc, Int.ofNat c.toNat, rest)

/-- The number loop of `Lexer::gettok`:
`do { NumStr += LastChar; LastChar = getNextChar(); } while (isdigit(LastChar) || LastChar == '.');`. -/
def numLoop (acc : String) (last : Int) : List Char → String × Int × List Char
  | [] => (acc.push (Char.ofNat last.toNat), -1, [])
  | c :: rest =>
    if isdigit (Int.ofNat c.toNat) || c = '.' then
      numLoop (acc.push (Char.ofNat last.toNat)) (Int.ofNat c.toNat) rest
    else (acc.push (Char.ofNat last.toNat), Int.ofNat c.toNat, rest)

/-- The comment loop of `Lexer::gettok`:
`do LastChar = getNextChar(); while (LastChar != EOF && LastChar != '\n' && LastChar != '\r');`. -/
def commentLoop : List Char → Int × List Char
  | [] => (-1, [])
  | c :: rest =>
    if c = '\n' || c = '\r' then (Int.ofNat c.toNat, rest) else commentLoop rest

/-- Value of a decimal digit character. -/
def digitVal (c : Char) : Nat := c.toNat - 48

/-- Accumulate a digit string into a natural number. -/
def digitsToNat (acc : Nat) : List Char → Nat
  | [] => acc
  | c :: rest => digitsToNat (acc * 10 + digitVal c) rest

/-- Models C `strtod` on the numeric strings the lexer produces (nonempty
strings of digits and `'.'`): the value of the longest valid decimal prefix
(digits, optionally followed by `'.'` and more digits); anything after a
second `'.'` is ignored, exactly as `strtod` stops at the first character
that cannot extend a valid number.  On the short decimal literals appearing
here the IEEE-754 rounding performed by the real `strtod` is exact, so the
rational result coincides with the C double. -/
def strtod (s : String) : ℚ :=
  let cs := s.toList
  let ds := cs.takeWhile (fun c => c.isDigit)
  let intPart := digitsToNat 0 ds
  match cs.drop ds.length with
  | '.' :: rest =>
    let fs := rest.takeWhile (fun c => c.isDigit)
    mkRat (Int.ofNat (intPart * 10 ^ fs.length + digitsToNat 0 fs)) (10 ^ fs.length)
  | _ => mkRat (Int.ofNat intPart) 1

/-- `Lexer::gettok` (lexer/lexer.cpp).  Returns the token code and the
updated lexer state.  `fuel` bounds only the self-recursion used to continue
after a line comment; each such recursion has consumed at least one input
character, so `inp.length + 1` fuel can never run out (the fuel-0 branch is
unreachable then; it conservatively reports end of input). -/
def gettok (fuel : Nat) (s : LexState) : Int × LexState :=
  match skipSpaces s.lastChar s.inp with
  | (last, inp) =>
    if isalpha last then
      match identLoop (String.mk [Char.ofNat last.toNat]) inp with
      | (idStr, last2, inp2) =>
        let tok : Int := if idStr = "def" then -2 else if idStr = "extern" then -3 else -4
        (tok, { s with inp := inp2, lastChar := last2, identifierStr := idStr })
    else if isdigit last || last = 46 then
      match numLoop "" last inp with
      | (numStr, last2, inp2) =>
        (-5, { s with inp := inp2, lastChar := last2, numVal := strtod numStr })
    else if last = 35 then
      match commentLoop inp with
      | (last2, inp2) =>
        if last2 = -1 then (-1, { s with inp := inp2, lastChar := -1 })
        else
          match fuel with
          | 0 => (-1, { s with inp := inp2, lastChar := -1 })
          | fuel + 1 => gettok fuel { s with inp := inp2, lastChar := last2 }
    else if last = -1 then
      (-1, { s with inp := inp, lastChar := last })
    else
      match getNextChar inp with
      | (nxt, inp2) => (last, { s with inp := inp2, lastChar := nxt })

/-- `Lexer::getNextToken`: `CurTok = gettok()`. -/
def getNextToken (fuel : Nat) (s : LexState) : Int × LexState :=
  match gettok fuel s with
  | (t, s2) => (t, { s2 with curTok := t })

/-- `Lexer::getNumberVal` (lexer/lexer.cpp): declared `int` although the
member `NumVal` it returns is a `double`, so the C++ double-to-int
conversion truncates the value toward zero.  `Int.tdiv num den` is exactly
that truncation on the rational model. -/
def getNumberVal (numVal : ℚ) : Int := Int.tdiv numVal.num (Int.ofNat numVal.den)

/-- Lexer state at start-up: the whole input unread, `LastChar = ' '`. -/
def initLex (input : String) : LexState :=
  ⟨input.toList, 32, "", mkRat 0 1, 0⟩

/-! ## Token view

The parser only observes the lexer through `getCurrentToken`,
`getIdentifierStr` and `getNumberVal`, so a token is its code together with
the payload register valid for it. -/

inductive Tok where
  | eof
  | kwDef
  | kwExt
  | ident (s : String)
  | num (v : ℚ)
  | ch (c : Char)
deriving DecidableEq

/-- The token code (the `int` the lexer returned) of a token. -/
def tokCode : Tok → Int
  | Tok.eof => -1
  | Tok.kwDef => -2
  | Tok.kwExt => -3
  | Tok.ident _ => -4
  | Tok.num _ => -5
  | Tok.ch c => Int.ofNat c.toNat

/-- The token as a `char` (only meaningful for single-character tokens;
the parser casts `CurTok` to `char` only when its precedence is positive,
which forces it to be a `Tok.ch`). -/
def tokChar : Tok → Char
  | Tok.ch c => c
  | _ => Char.ofNat 0

/-- Package a token code returned by `gettok` with the payload registers. -/
def tokOfCode (code : Int) (s : LexState) : Tok :=
  if code = -1 then Tok.eof
  else if code = -2 then Tok.kwDef
  else if code = -3 then Tok.kwExt
  else if code = -4 then Tok.ident s.identifierStr
  else if code = -5 then Tok.num s.numVal
  else Tok.ch (Char.ofNat code.toNat)

/-- Run the lexer to the end token, collecting the token stream a driver
loop would observe.  The outer fuel is an iteration bound: the lexer emits
at most one token per input character plus the end token, so
`input.length + 2` rounds always reach `tok_eof`. -/
def tokenizeAux : Nat → LexState → List Tok
  | 0, _ => []
  | n + 1, s =>
    match getNextToken (s.inp.length + 1) s with
    | (code, s2) =>
      if code = -1 then [Tok.eof]
      else tokOfCode code s2 :: tokenizeAux n s2

/-- The token stream of an input string. -/
def tokenize (input : String) : List Tok :=
  tokenizeAux (input.length + 2) (initLex input)

/-! ## AST (ast.h) -/

inductive Expr where
  | num (v : ℚ)
  | var (name : String)
  | binary (op : Char) (lhs rhs : Expr)
  | call (callee : String) (args : List Expr)

/-! ## Parser (main.cpp)

`BinopPrecedence` is the `std::map<char,int>` populated in `main()`;
`operator[]` yields 0 for any other key. -/

/-- The fixed operator-precedence table installed by `main()`. -/
def BinopPrecedence (c : Char) : Int :=
  if c = '<' then 10
  else if c = '+' then 20
  else if c = '-' then 30
  else if c = '*' then 40
  else 0

/-- `getTokenPrecedence`: -1 unless the current token is an ASCII character
with positive precedence (`isascii` is false on the negative token codes of
keywords, identifiers, numbers and end-of-input). -/
def getTokenPrecedence (t : Tok) : Int :=
  if tokCode t < 0 || 127 < tokCode t then -1
  else
    let prec := BinopPrecedence (tokChar t)
    if prec ≤ 0 then -1 else prec

/-- Parser state: the current token plus the tokens the lexer has yet to
produce.  Advancing past the end keeps yielding `Tok.eof`, which is the
lexer's idempotent end-of-input behaviour. -/
structure PState where
  rest : List Tok
  curTok : Tok
deriving DecidableEq

/-- `lexer.getNextToken()` as seen by the parser. -/
def PState.advance (s : PState) : PState :=
  match s.rest with
  | [] => ⟨[], Tok.eof⟩
  | t :: ts => ⟨ts, t⟩

/-- Parser state after `main()` primes the first token. -/
def primeToks (toks : List Tok) : PState :=
  PState.advance ⟨toks, Tok.eof⟩

/-- Which mutually recursive parsing routine of main.cpp is executing.
`expressionR` is `ParseExpression`, `primaryR` is `ParsePrimary`,
`binOpRHSR` is `ParseBinOpRHS` (one loop iteration), `parenR` is
`ParseParenExpr` after eating `'('`, `identRestR` is `ParseIdentifierExpr`
after eating the identifier, and `argsLoopR` is its argument-list loop. -/
inductive PReq where
  | expressionR
  | primaryR
  | binOpRHSR (exprPrec : Int) (lhs : Expr)
  | parenR
  | identRestR (idName : String)
  | argsLoopR (idName : String) (acc : List Expr)

/-- The mutually recursive expression parser of main.cpp, defunctionalised
over `PReq` so that the recursion is structural on the stack-depth fuel.
A failing production returns `none` (the sources' null `ExprAST` pointer)
and leaves resynchronisation to the driver.  `ParseNumberExpr` builds its
`NumberExprAST` from `lexer.getNumberVal()`, whose `int` return type
truncates the stored double. -/
def parseGo : Nat → PReq → PState → Option Expr × PState
  | 0, _, s => (none, s)
  | fuel + 1, PReq.expressionR, s =>
    match parseGo fuel PReq.primaryR s with
    | (none, s1) => (none, s1)
    | (some lhs, s1) => parseGo fuel (PReq.binOpRHSR 0 lhs) s1
  | fuel + 1, PReq.primaryR, s =>
    match s.curTok with
    | Tok.ident name => parseGo fuel (PReq.identRestR name) s.advance
    | Tok.num v => (some (Expr.num (Rat.ofInt (getNumberVal v))), s.advance)
    | Tok.ch c => if c = '(' then parseGo fuel PReq.parenR s.advance else (none, s)
    | _ => (none, s)
  | fuel + 1, PReq.parenR, s =>
    match parseGo fuel PReq.expressionR s with
    | (none, s1) => (none, s1)
    | (some v, s1) =>
      if s1.curTok = Tok.ch ')' then (some v, s1.advance) else (none, s1)
  | fuel + 1, PReq.identRestR idName, s =>
    if s.curTok = Tok.ch '(' then
      if s.advance.curTok = Tok.ch ')' then
        (some (Expr.call idName []), s.advance.advance)
      else parseGo fuel (PReq.argsLoopR idName []) s.advance
    else (some (Expr.var idName), s)
  | fuel + 1, PReq.argsLoopR idName acc, s =>
    match parseGo fuel PReq.expressionR s with
    | (none, s1) => (none, s1)
    | (some arg, s1) =>
      if s1.curTok = Tok.ch ')' then (some (Expr.call idName (acc ++ [arg])), s1.advance)
      else if s1.curTok = Tok.ch ',' then
        parseGo fuel (PReq.argsLoopR idName (acc ++ [arg])) s1.advance
      else (none, s1)
  | fuel + 1, PReq.binOpRHSR exprPrec lhs, s =>
    let tokPrec := getTokenPrecedence s.curTok
    if tokPrec < exprPrec then (some lhs, s)
    else
      let binOp := tokChar s.curTok
      match parseGo fuel PReq.primaryR s.advance with
      | (none, s2) => (none, s2)
      | (some rhs, s2) =>
        let nextPrec := getTokenPrecedence s2.curTok
        if tokPrec < nextPrec then
          match parseGo fuel (PReq.binOpRHSR (tokPrec + 1) rhs) s2 with
          | (none, s3) => (none, s3)
          | (some rhs2, s3) =>
            parseGo fuel (PReq.binOpRHSR exprPrec (Expr.binary binOp lhs rhs2)) s3
        else parseGo fuel (PReq.binOpRHSR exprPrec (Expr.binary binOp lhs rhs)) s2

/-- `ParseExpression` on a finished token stream, with stack depth ample for
the inputs considered here. -/
def runParseExpr (toks : List Tok) : Option Expr :=
  (parseGo 32 PReq.expressionR (primeToks toks)).1

/-- Arithmetic semantics of the binary operators exactly as
`BinaryExprAST::codegen` lowers them: `+`,`-`,`*` are double arithmetic
(`FAdd`/`FSub`/`FMul`, exact on the small integers used here) and `<` is the
unsigned-less-than compare widened to 0.0/1.0.  Only closed arithmetic trees
evaluate; variables and calls have no value without a context. -/
def evalExpr : Expr → Option ℚ
  | Expr.num v => some v
  | Expr.var _ => none
  | Expr.call _ _ => none
  | Expr.binary op l r =>
    match evalExpr l, evalExpr r with
    | some a, some b =>
      if op = '+' then some (a + b)
      else if op = '-' then some (a - b)
      else if op = '*' then some (a * b)
      else if op = '<' then some (if a < b then 1 else 0)
      else none
    | _, _ => none

/-! ## Lowering (codegen.cpp)

The backend is modelled at the interface the sources use: a module is a
list of IR functions; a function has a name, parameter names, a number of
basic blocks (0 = declaration only, `Function::empty()`) and its emitted
instructions; values are opaque handles (constants, formal arguments, or
instruction results).  `Builder` is the insertion point plus a fresh-id
counter.  `diags` records lines printed to stderr during lowering; note
that codegen.cpp contains no print call at all: its only diagnostic
routine `LogErrorV` calls itself instead of `LogError`. -/

inductive IRValue where
  | constFP (v : ℚ)
  | argVal (fn : String) (param : String)
  | inst (id : Nat)
deriving DecidableEq

inductive Instr where
  | fadd (l r : IRValue)
  | fsub (l r : IRValue)
  | fmul (l r : IRValue)
  | fcmpULT (l r : IRValue)
  | uitofp (v : IRValue)
  | callFn (callee : String) (args : List IRValue)
  | retFP (v : IRValue)
deriving DecidableEq

structure IRFunc where
  name : String
  params : List String
  blocks : Nat
  insts : List Instr
deriving DecidableEq

/-- The codegen globals of codegen.cpp: `TheModule`, `FunctionProtos`
(name to parameter list), `NamedValues`, the builder insertion point
(index of the function being filled in the current module), the fresh
value counter, and the stderr diagnostics printed so far. -/
structure CGState where
  module : List IRFunc
  protos : List (String × List String)
  namedValues : List (String × IRValue)
  insertPt : Option Nat
  nextId : Nat
  diags : List String
deriving DecidableEq

/-- Outcome of running a lowering routine: it either returns (possibly a
null pointer, `ret none`), or the process dies inside `LogErrorV`'s
unbounded recursion (`crash`, carrying the state at the moment the
recursion began — nothing observable happens after it). -/
inductive CgR (α : Type) where
  | crash (s : CGState)
  | ret (v : Option α) (s : CGState)
deriving DecidableEq

def CgR.isCrash {α : Type} : CgR α → Bool
  | CgR.crash _ => true
  | CgR.ret _ _ => false

def CgR.isOk {α : Type} : CgR α → Bool
  | CgR.ret (some _) _ => true
  | _ => false

def CgR.isNullRet {α : Type} : CgR α → Bool
  | CgR.ret none _ => true
  | _ => false

def CgR.stateOf {α : Type} : CgR α → CGState
  | CgR.crash s => s
  | CgR.ret _ s => s

/-- `std::map::find`-style lookup in an association list. -/
def lookupA {α : Type} : List (String × α) → String → Option α
  | [], _ => none
  | (k, v) :: rest, key => if k = key then some v else lookupA rest key

/-- `std::map` assignment `m[key] = val`: replace an existing binding or
insert a new one (keys stay unique). -/
def insertA {α : Type} : List (String × α) → String → α → List (String × α)
  | [], key, val => [(key, val)]
  | (k, v) :: rest, key, val =>
    if k = key then (key, val) :: rest else (k, v) :: insertA rest key val

/-- Mutate the function at an index of the module (pointer update). -/
def modifyAt : List IRFunc → Nat → (IRFunc → IRFunc) → List IRFunc
  | [], _, _ => []
  | f :: rest, 0, g => g f :: rest
  | f :: rest, n + 1, g => f :: modifyAt rest n g

/-- `Function::eraseFromParent`: remove the function at an index. -/
def eraseAt : List IRFunc → Nat → List IRFunc
  | [], _ => []
  | _ :: rest, 0 => rest
  | f :: rest, n + 1 => f :: eraseAt rest n

/-- `LogErrorV` (codegen.cpp lines 12-15):
`{ LogErrorV(Str); return nullptr; }` — it calls itself rather than
`LogError`, so it prints nothing and the recursion never returns.  `fuel`
is the remaining call-stack depth; `none` means the stack is exhausted
before any `return` executes, `some none` would be the `return nullptr`
that is never reached. -/
def LogErrorV : Nat → Option (Option IRValue)
  | 0 => none
  | fuel + 1 =>
    match LogErrorV fuel with
    | none => none
    | some _ => some none

/-- `Builder.Create*`: append an instruction to the function holding the
insertion point and hand back its result value.  `FunctionAST::codegen`
always sets the insertion point before any expression is lowered. -/
def emit (i : Instr) (s : CGState) : IRValue × CGState :=
  let v := IRValue.inst s.nextId
  let m := match s.insertPt with
    | some fi => modifyAt s.module fi (fun f => { f with insts := f.insts ++ [i] })
    | none => s.module
  (v, { s with module := m, nextId := s.nextId + 1 })

/-- `PrototypeAST::codegen`: create a function of the given name and
all-double arity in the current module (no entry block yet) and name its
arguments; returns the new function (by index). -/
def protoCodegen (name : String) (args : List String) (s : CGState) : Nat × CGState :=
  (s.module.length, { s with module := s.module ++ [⟨name, args, 0, []⟩] })

/-- `Module::getFunction`: index of the first function with this name. -/
def findFn : List IRFunc → String → Option Nat
  | [], _ => none
  | f :: rest, name =>
    if f.name = name then some 0 else (findFn rest name).map (· + 1)

/-- Dereference a function index (the `llvm::Function *`). -/
def getFn : List IRFunc → Nat → IRFunc
  | [], _ => ⟨"", [], 0, []⟩
  | f :: _, 0 => f
  | _ :: rest, n + 1 => getFn rest n

/-- `getFunction` (codegen.cpp lines 17-29): resolve a name first against
the current module, then by lazily lowering a declaration from the global
prototype table; null if neither knows the name. -/
def getFunction (name : String) (s : CGState) : Option Nat × CGState :=
  match findFn s.module name with
  | some i => (some i, s)
  | none =>
    match lookupA s.protos name with
    | some args =>
      match protoCodegen name args s with
      | (i, s2) => (some i, s2)
    | none => (none, s)

/-- One iteration of the argument-lowering loop of `CallExprAST::codegen`:
lower the next argument with `g` unless a previous iteration already
failed; a null argument value makes the whole call return null. -/
def argStep (g : Expr → CGState → CgR IRValue)
    (acc : CgR (List IRValue)) (a : Expr) : CgR (List IRValue) :=
  match acc with
  | CgR.crash st => CgR.crash st
  | CgR.ret none st => CgR.ret none st
  | CgR.ret (some vs) st =>
    match g a st with
    | CgR.crash st2 => CgR.crash st2
    | CgR.ret none st2 => CgR.ret none st2
    | CgR.ret (some v) st2 => CgR.ret (some (vs ++ [v])) st2

/-- Lowering of expression nodes (`NumberExprAST::codegen`,
`VariableExprAST::codegen`, `BinaryExprAST::codegen`,
`CallExprAST::codegen`).  `fuel` is the remaining C++ call-stack depth:
each recursive lowering call and each `LogErrorV` call runs one level
deeper; fuel 0 is the stack overflowing.  A `NamedValues` miss reads the
null entry that `std::map::operator[]` default-inserts, calls `LogErrorV`
(which never returns) and would then return that null value. -/
def exprCodegen : Nat → Expr → CGState → CgR IRValue
  | 0, _, s => CgR.crash s
  | _ + 1, Expr.num v, s => CgR.ret (some (IRValue.constFP v)) s
  | fuel + 1, Expr.var name, s =>
    match lookupA s.namedValues name with
    | some v => CgR.ret (some v) s
    | none =>
      match LogErrorV fuel with
      | none => CgR.crash s
      | some _ => CgR.ret none s
  | fuel + 1, Expr.binary op l r, s =>
    match exprCodegen fuel l s with
    | CgR.crash s1 => CgR.crash s1
    | CgR.ret lv s1 =>
      match exprCodegen fuel r s1 with
      | CgR.crash s2 => CgR.crash s2
      | CgR.ret rv s2 =>
        match lv, rv with
        | some l2, some r2 =>
          if op = '+' then
            match emit (Instr.fadd l2 r2) s2 with
            | (v, s3) => CgR.ret (some v) s3
          else if op = '-' then
            match emit (Instr.fsub l2 r2) s2 with
            | (v, s3) => CgR.ret (some v) s3
          else if op = '*' then
            match emit (Instr.fmul l2 r2) s2 with
            | (v, s3) => CgR.ret (some v) s3
          else if op = '<' then
            match emit (Instr.fcmpULT l2 r2) s2 with
            | (c2, s3) =>
              match emit (Instr.uitofp c2) s3 with
              | (b2, s4) => CgR.ret (some b2) s4
          else
            match LogErrorV fuel with
            | none => CgR.crash s2
            | some rv2 => CgR.ret rv2 s2
        | _, _ => CgR.ret none s2
  | fuel + 1, Expr.call callee args, s =>
    match getFunction callee s with
    | (none, s1) =>
      match LogErrorV fuel with
      | none => CgR.crash s1
      | some rv => CgR.ret rv s1
    | (some fi, s1) =>
      let calleeF := getFn s1.module fi
      if calleeF.params.length ≠ args.length then
        match LogErrorV fuel with
        | none => CgR.crash s1
        | some rv => CgR.ret rv s1
      else
        match args.foldl (argStep (exprCodegen fuel))
            (CgR.ret (some ([] : List IRValue)) s1) with
        | CgR.crash s2 => CgR.crash s2
        | CgR.ret none s2 => CgR.ret none s2
        | CgR.ret (some argVs) s2 =>
          match emit (Instr.callFn calleeF.name argVs) s2 with
          | (v, s3) => CgR.ret (some v) s3

/-- `FunctionAST::codegen` (codegen.cpp lines 111-146): transfer the
prototype into `FunctionProtos` (overwriting any previous binding of the
name), resolve or declare the function, open an entry block and point the
builder at it, reseed `NamedValues` from the function's formal arguments,
lower the body, and on success emit the return and run the (here
behaviour-preserving) local optimisation passes.  On a null body the
partially built function is erased.  There is no redefinition check in
this routine. -/
def functionCodegen (fuel : Nat) (protoName : String) (protoArgs : List String)
    (body : Expr) (s : CGState) : CgR Nat :=
  let s0 : CGState := { s with protos := insertA s.protos protoName protoArgs }
  match getFunction protoName s0 with
  | (none, s1) => CgR.ret none s1
  | (some fi, s1) =>
    let theFunction := getFn s1.module fi
    let s2 : CGState :=
      { s1 with module := modifyAt s1.module fi (fun f => { f with blocks := f.blocks + 1 }),
                insertPt := some fi }
    let s3 : CGState :=
      { s2 with namedValues :=
          theFunction.params.map (fun p => (p, IRValue.argVal theFunction.name p)) }
    match exprCodegen fuel body s3 with
    | CgR.crash sC => CgR.crash sC
    | CgR.ret (some retVal) s4 =>
      match emit (Instr.retFP retVal) s4 with
      | (_, s5) => CgR.ret (some fi) s5
    | CgR.ret none s4 =>
      CgR.ret none { s4 with module := eraseAt s4.module fi }

/-! ## Driver (main.cpp): the incremental compile/execute loop -/

/-- A session: the codegen state plus the modules made resident in the
JIT so far (`TheJIT->addModule`). -/
structure Session where
  cg : CGState
  jit : List (List IRFunc)
deriving DecidableEq

def initCG : CGState := ⟨[], [], [], none, 0, []⟩

def initSession : Session := ⟨initCG, []⟩

/-- `InitializeModuleAndPassManager`: open a fresh module (the other
globals persist; the builder points nowhere until the next function). -/
def freshModuleCG (s : CGState) : CGState :=
  { s with module := [], insertPt := none }

/-- `HandleDefinition` on an already parsed `def` (main.cpp lines 246-260):
lower it; on success print the IR, move the module into the JIT and open a
fresh one.  The returned flag records whether lowering succeeded; `none`
is the process dying inside `LogErrorV`. -/
def handleDefinition (fuel : Nat) (protoName : String) (protoArgs : List String)
    (body : Expr) (sess : Session) : Option (Session × Bool) :=
  match functionCodegen fuel protoName protoArgs body sess.cg with
  | CgR.crash _ => none
  | CgR.ret (some _) cg2 => some (⟨freshModuleCG cg2, sess.jit ++ [cg2.module]⟩, true)
  | CgR.ret none cg2 => some (⟨cg2, sess.jit⟩, false)

/-- `HandleExtern` on an already parsed prototype (main.cpp lines 262-273):
lower the declaration into the current module (this cannot fail) and then
record the prototype in `FunctionProtos`. -/
def handleExt (name : String) (args : List String) (sess : Session) : Session :=
  match protoCodegen name args sess.cg with
  | (_, cg2) => { sess with cg := { cg2 with protos := insertA cg2.protos name args } }

/-- `HandleTopLevelExpression` (main.cpp lines 275-307): wrap the bare
expression in the anonymous nullary function `__anon_expr`, lower it, and
on success JIT the module, run the symbol, and unload that one-shot module
again (so `jit` is unchanged) before opening a fresh module. -/
def handleTopLevelExpression (fuel : Nat) (body : Expr) (sess : Session) :
    Option (Session × Bool) :=
  match functionCodegen fuel "__anon_expr" [] body sess.cg with
  | CgR.crash _ => none
  | CgR.ret (some _) cg2 => some (⟨freshModuleCG cg2, sess.jit⟩, true)
  | CgR.ret none cg2 => some (⟨cg2, sess.jit⟩, false)

/-- Is an instruction a call? (for "no call instruction is emitted"). -/
def instrIsCall : Instr → Bool
  | Instr.callFn _ _ => true
  | _ => false

/-- No function of the module contains a call instruction. -/
def moduleCallFree (m : List IRFunc) : Bool :=
  m.all (fun f => f.insts.all (fun i => !instrIsCall i))

/-! ## Scenario states shared by several theorems -/

/-- The session after `def f(x) x` has been lowered successfully from a
fresh start (the module holding `f` is resident in the JIT, a fresh module
is open, and the prototype table knows `f`). -/
def sessAfterDefF : Session :=
  ((handleDefinition 100 "f" ["x"] (Expr.var "x") initSession).getD (initSession, false)).1

/-- The session after `def f(x) x` has been lowered successfully twice. -/
def sessAfterDefF2 : Session :=
  ((handleDefinition 100 "f" ["x"] (Expr.var "x") sessAfterDefF).getD (initSession, false)).1

/-- Session after `extern foo(x)`. -/
def c7s1 : Session := handleExt "foo" ["x"] initSession

/-- Session after `extern foo(x)` and a successful unrelated definition
(which ships the open module, `foo` declaration included, to the JIT). -/
def c7s2 : Session :=
  ((handleDefinition 100 "baz" ["z"] (Expr.var "z") c7s1).getD (initSession, false)).1

/-- Session after additionally lowering `def bar(y) foo(y)` in `c7s2`. -/
def c7s3 : Session :=
  ((handleDefinition 100 "bar" ["y"] (Expr.call "foo" [Expr.var "y"]) c7s2).getD
    (initSession, false)).1

/-- Lowering `def f(x) y` (unknown variable `y` in the body) from a fresh
session. -/
def lowerUnknownVar (fuel : Nat) : CgR Nat :=
  functionCodegen fuel "f" ["x"] (Expr.var "y") initCG

/-- Lowering `def g(x) x / x` — `/` is not a known binary operator. -/
def lowerBadOp (fuel : Nat) : CgR Nat :=
  functionCodegen fuel "g" ["x"] (Expr.binary '/' (Expr.var "x") (Expr.var "x")) initCG

/-- Lowering `def h() nope()` — the callee is entirely unknown. -/
def lowerUnknownCallee (fuel : Nat) : CgR Nat :=
  functionCodegen fuel "h" [] (Expr.call "nope" []) initCG

/-- Lowering the bare expression `f(1,2)` (wrapped in `__anon_expr`)
after `def f(x) x`: the call supplies 2 arguments to a 1-parameter `f`. -/
def lowerArityMismatch (fuel : Nat) : CgR Nat :=
  functionCodegen fuel "__anon_expr" []
    (Expr.call "f" [Expr.num (Rat.ofInt 1), Expr.num (Rat.ofInt 2)]) sessAfterDefF.cg

/-- Lowering `def f(a) y` after a successful `def f(x) x`: the prototype
entry for `f` is overwritten, then the body fails to lower. -/
def lowerRedefBadBody (fuel : Nat) : CgR Nat :=
  functionCodegen fuel "f" ["a"] (Expr.var "y") sessAfterDefF.cg

/-! ## Helper lemmas -/

/-- `LogErrorV` never returns, whatever stack depth is available: its
recursion has no base case. -/
lemma LogErrorV_eq_none : ∀ fuel, LogErrorV fuel = none := by
  intro fuel
  induction fuel with
  | zero => rfl
  | succ n ih => simp [LogErrorV, ih]

lemma skipSpaces_not (last : Int) (inp : List Char) (h : isspace last = false) :
    skipSpaces last inp = (last, inp) := by
  cases inp <;> simp [skipSpaces, h]

/-- With `LastChar` already at EOF, `gettok` returns the end token and
changes nothing: no branch reads the stream. -/
lemma gettok_at_eof (fuel : Nat) (s : LexState) (h : s.lastChar = -1) :
    gettok fuel s = (-1, s) := by
  rw [gettok, skipSpaces_not _ _ (by rw [h]; rfl)]
  rw [h]
  norm_num [isalpha, isdigit]
  rw [← h]

/-- Whenever `gettok` returns the end token, the resulting `LastChar` is
EOF (this covers reaching end-of-input inside a line comment, where the
comment branch stores EOF before falling through to the end-token return). -/
lemma gettok_eof_state : ∀ (fuel : Nat) (s : LexState) (t : Int) (s2 : LexState),
    gettok fuel s = (t, s2) → t = -1 → s2.lastChar = -1 := by
  intro fuel
  induction fuel with
  | zero =>
    intro s t s2 h ht
    subst ht
    rw [gettok] at h
    dsimp only at h
    repeat' split at h
    all_goals simp_all
    all_goals (rw [← h])
  | succ n ih =>
    intro s t s2 h ht
    subst ht
    rw [gettok] at h
    dsimp only at h
    repeat' split at h
    all_goals first
      | (exact ih _ _ _ h rfl)
      | simp_all
    all_goals (rw [← h])

/-- Folding the argument loop from an already-crashed accumulator stays
crashed (the loop body never runs again after the process died). -/
lemma foldl_argStep_crash (g : Expr → CGState → CgR IRValue) :
    ∀ (as : List Expr) (st : CGState),
      as.foldl (argStep g) (CgR.crash st) = CgR.crash st := by
  intro as
  induction as with
  | nil => intro st; rfl
  | cons a rest ih => intro st; simpa [argStep] using ih st

/-- If the per-argument lowering never returns null, neither does the
argument loop started from a successful accumulator. -/
lemma foldl_argStep_no_nullret (g : Expr → CGState → CgR IRValue)
    (hg : ∀ a st, (g a st).isNullRet = false) :
    ∀ (as : List Expr) (vs : List IRValue) (st : CGState),
      (as.foldl (argStep g) (CgR.ret (some vs) st)).isNullRet = false := by
  intro as
  induction as with
  | nil => intro vs st; rfl
  | cons a rest ih =>
    intro vs st
    rw [List.foldl_cons]
    have h1 := hg a st
    rcases hga : g a st with sC | ⟨v, st2⟩
    · have hstep : argStep g (CgR.ret (some vs) st) a = CgR.crash sC := by
        simp [argStep, hga]
      rw [hstep, foldl_argStep_crash]
      rfl
    · rcases v with _ | v
      · rw [hga] at h1
        simp [CgR.isNullRet] at h1
      · have hstep : argStep g (CgR.ret (some vs) st) a = CgR.ret (some (vs ++ [v])) st2 := by
          simp [argStep, hga]
        rw [hstep]
        exact ih _ _

/-- No expression lowering ever returns a null value normally: every error
path goes through `LogErrorV` and crashes instead, so the null-propagation
code (`if (!L || !R) return nullptr`, the null-argument check, and the
`eraseFromParent` recovery in `FunctionAST::codegen`) is dead. -/
lemma exprCodegen_no_nullret : ∀ (fuel : Nat) (e : Expr) (s : CGState),
    (exprCodegen fuel e s).isNullRet = false := by
  intro fuel
  induction fuel with
  | zero => intro e s; rfl
  | succ n ih =>
    intro e s
    cases e with
    | num v => rfl
    | var name =>
      rcases hl : lookupA s.namedValues name with _ | v
      · simp [exprCodegen, hl, LogErrorV_eq_none, CgR.isNullRet]
      · simp [exprCodegen, hl, CgR.isNullRet]
    | binary op l r =>
      have hL := ih l s
      rcases h1 : exprCodegen n l s with s1 | ⟨lv, s1⟩
      · simp [exprCodegen, h1, CgR.isNullRet]
      · have hR := ih r s1
        rcases h2 : exprCodegen n r s1 with s2 | ⟨rv, s2⟩
        · simp [exprCodegen, h1, h2, CgR.isNullRet]
        · rw [h1] at hL
          rw [h2] at hR
          rcases lv with _ | l2
          · simp [CgR.isNullRet] at hL
          rcases rv with _ | r2
          · simp [CgR.isNullRet] at hR
          simp only [exprCodegen, h1, h2]
          split_ifs <;> simp [emit, CgR.isNullRet, LogErrorV_eq_none]
    | call callee args =>
      rcases hgf : getFunction callee s with ⟨fi, s1⟩
      rcases fi with _ | fi
      · simp [exprCodegen, hgf, LogErrorV_eq_none, CgR.isNullRet]
      · by_cases harity : (getFn s1.module fi).params.length ≠ args.length
        · simp [exprCodegen, hgf, harity, LogErrorV_eq_none, CgR.isNullRet]
        · have hfold := foldl_argStep_no_nullret (exprCodegen n) (fun a st => ih a st)
            args [] s1
          rcases hf : args.foldl (argStep (exprCodegen n)) (CgR.ret (some []) s1)
            with sf | ⟨vf, sf⟩
          · simp [exprCodegen, hgf, harity, hf, CgR.isNullRet]
          · rcases vf with _ | argVs
            · rw [hf] at hfold
              simp [CgR.isNullRet] at hfold
            · simp [exprCodegen, hgf, harity, hf, emit, CgR.isNullRet]

/-! ## The claims -/

/-- C1 counterexample: lowering `def f(x) x` twice in the same session does
NOT fail the second time — both lowerings succeed, because the
`FunctionAST::codegen` of codegen.cpp has no redefinition check (each
definition is lowered into a fresh module and `getFunction` re-declares the
name there from the freshly overwritten prototype entry). -/
theorem c1_counterexample :
    (handleDefinition 100 "f" ["x"] (Expr.var "x") initSession).map Prod.snd = some true ∧
    (handleDefinition 100 "f" ["x"] (Expr.var "x") sessAfterDefF).map Prod.snd = some true :=
  ⟨by decide, by decide⟩

/-- C1 amended: in a session where `def f(x) x` was lowered successfully, a
second `def f(x) x` also lowers successfully (no redefinition error): the
prototype-table entry is overwritten, a new `f` with a body is emitted into
the (fresh) current module and made resident, and the first definition's
resident compiled code is left unchanged. -/
theorem c1_amended_redefinition_accepted :
    (handleDefinition 100 "f" ["x"] (Expr.var "x") sessAfterDefF).map Prod.snd = some true ∧
    sessAfterDefF2.jit.length = 2 ∧
    sessAfterDefF2.jit.take 1 = sessAfterDefF.jit ∧
    (sessAfterDefF2.jit.getD 1 []).map (fun f => (f.name, f.blocks)) = [("f", 1)] ∧
    lookupA sessAfterDefF2.cg.protos "f" = some ["x"] :=
  ⟨by decide, by decide, by decide, by decide, by decide⟩

set_option maxHeartbeats 1600000 in
/-- C2: REFUTED — the lexer stores the full double value of the literal in
`NumVal` (for "2.5" that is 5/2), but `Lexer::getNumberVal`, through which
`ParseNumberExpr` reads it, is declared `int`, so the NumberLiteral node is
built from the value truncated toward zero: parsing "2.5" yields
`NumberLiteral 2`, not 2.5. -/
theorem c2_number_value_truncated :
    tokenize "2.5" = [Tok.num (mkRat 5 2), Tok.eof] ∧
    getNumberVal (mkRat 5 2) = 2 ∧
    runParseExpr (tokenize "2.5") = some (Expr.num (Rat.ofInt 2)) ∧
    Rat.ofInt 2 ≠ mkRat 5 2 :=
  ⟨by decide, by decide, rfl, by decide⟩

/-- C3: REFUTED — no lowering error path terminates: `LogErrorV` calls
itself instead of `LogError`, so it never returns for any finite stack and
surfaces no diagnostic at all; lowering an unknown variable, an invalid
binary operator, or an unknown callee therefore kills the process inside
`LogErrorV` (with an empty diagnostic stream) instead of returning an
absent result and letting the driver continue. -/
theorem c3_lowering_error_never_returns :
    (∀ fuel, LogErrorV fuel = none) ∧
    (∀ fuel, (lowerUnknownVar fuel).isCrash = true ∧
      (lowerUnknownVar fuel).stateOf.diags = []) ∧
    (∀ fuel, (lowerBadOp fuel).isCrash = true) ∧
    (∀ fuel, (lowerUnknownCallee fuel).isCrash = true) := by
  refine ⟨LogErrorV_eq_none, fun fuel => ?_, fun fuel => ?_, fun fuel => ?_⟩
  · rcases fuel with _ | n
    · exact ⟨by decide, by decide⟩
    · constructor <;>
        simp [lowerUnknownVar, functionCodegen, exprCodegen, getFunction, findFn, getFn,
          lookupA, insertA, protoCodegen, modifyAt, emit, initCG, LogErrorV_eq_none,
          CgR.isCrash, CgR.stateOf]
  · rcases fuel with _ | _ | n
    · decide
    · decide
    · simp [lowerBadOp, functionCodegen, exprCodegen, getFunction, findFn, getFn,
        lookupA, insertA, protoCodegen, modifyAt, emit, initCG, LogErrorV_eq_none,
        CgR.isCrash]
  · rcases fuel with _ | n
    · decide
    · simp [lowerUnknownCallee, functionCodegen, exprCodegen, getFunction, findFn, getFn,
        lookupA, insertA, protoCodegen, modifyAt, emit, initCG, LogErrorV_eq_none,
        CgR.isCrash]

set_option maxHeartbeats 1600000 in
/-- C4: parsing "1 + 2 * 3" yields BinaryOp('+', 1, BinaryOp('*', 2, 3))
because `*` outranks `+`, and the arithmetic semantics of the lowered
operators evaluates that tree to 7. -/
theorem c4_precedence_grouping_evaluates_to_seven :
    runParseExpr (tokenize "1 + 2 * 3") =
      some (Expr.binary '+' (Expr.num (Rat.ofInt 1))
        (Expr.binary '*' (Expr.num (Rat.ofInt 2)) (Expr.num (Rat.ofInt 3)))) ∧
    evalExpr (Expr.binary '+' (Expr.num (Rat.ofInt 1))
        (Expr.binary '*' (Expr.num (Rat.ofInt 2)) (Expr.num (Rat.ofInt 3)))) = some 7 :=
  ⟨rfl, by simp [evalExpr]; norm_num [Rat.ofInt]⟩

set_option maxHeartbeats 1600000 in
/-- C5: parsing "1 - 2 - 3" left-folds the equal-precedence operators into
BinaryOp('-', BinaryOp('-', 1, 2), 3), which evaluates to -4. -/
theorem c5_left_associativity_evaluates_to_minus_four :
    runParseExpr (tokenize "1 - 2 - 3") =
      some (Expr.binary '-'
        (Expr.binary '-' (Expr.num (Rat.ofInt 1)) (Expr.num (Rat.ofInt 2)))
        (Expr.num (Rat.ofInt 3))) ∧
    evalExpr (Expr.binary '-'
        (Expr.binary '-' (Expr.num (Rat.ofInt 1)) (Expr.num (Rat.ofInt 2)))
        (Expr.num (Rat.ofInt 3))) = some (-4) :=
  ⟨rfl, by simp [evalExpr]; norm_num [Rat.ofInt]⟩

/-- C6: the operator-precedence table is exactly '<' = 10, '+' = 20,
'-' = 30, '*' = 40; every other token (any other character, and the
negative-coded keyword/identifier/number/end tokens) gets precedence -1,
which terminates the precedence climb; consequently "a + b - c" parses as
BinaryOp('+', a, BinaryOp('-', b, c)) because '-' binds tighter than '+'. -/
theorem c6_precedence_table_and_grouping (c : Char)
    (h1 : c ≠ '<') (h2 : c ≠ '+') (h3 : c ≠ '-') (h4 : c ≠ '*')
    (a b d nm : String) (q : ℚ) :
    BinopPrecedence '<' = 10 ∧ BinopPrecedence '+' = 20 ∧
    BinopPrecedence '-' = 30 ∧ BinopPrecedence '*' = 40 ∧
    getTokenPrecedence (Tok.ch c) = -1 ∧
    getTokenPrecedence Tok.eof = -1 ∧
    getTokenPrecedence Tok.kwDef = -1 ∧
    getTokenPrecedence Tok.kwExt = -1 ∧
    getTokenPrecedence (Tok.ident nm) = -1 ∧
    getTokenPrecedence (Tok.num q) = -1 ∧
    runParseExpr [Tok.ident a, Tok.ch '+', Tok.ident b, Tok.ch '-', Tok.ident d, Tok.eof] =
      some (Expr.binary '+' (Expr.var a) (Expr.binary '-' (Expr.var b) (Expr.var d))) := by
  refine ⟨by decide, by decide, by decide, by decide, ?_, by decide, by decide, by decide,
    rfl, rfl, rfl⟩
  have hBP : BinopPrecedence c = 0 := by simp [BinopPrecedence, h1, h2, h3, h4]
  rw [getTokenPrecedence]
  split
  · rfl
  · simp [tokChar, hBP]

/-- C6 witness: the theorem instantiated at the character 'z' and concrete
identifiers. -/
theorem c6_witness :
    BinopPrecedence '<' = 10 ∧ BinopPrecedence '+' = 20 ∧
    BinopPrecedence '-' = 30 ∧ BinopPrecedence '*' = 40 ∧
    getTokenPrecedence (Tok.ch 'z') = -1 ∧
    getTokenPrecedence Tok.eof = -1 ∧
    getTokenPrecedence Tok.kwDef = -1 ∧
    getTokenPrecedence Tok.kwExt = -1 ∧
    getTokenPrecedence (Tok.ident "w") = -1 ∧
    getTokenPrecedence (Tok.num (mkRat 0 1)) = -1 ∧
    runParseExpr [Tok.ident "a", Tok.ch '+', Tok.ident "b", Tok.ch '-', Tok.ident "d",
        Tok.eof] =
      some (Expr.binary '+' (Expr.var "a")
        (Expr.binary '-' (Expr.var "b") (Expr.var "d"))) :=
  c6_precedence_table_and_grouping 'z' (by decide) (by decide) (by decide) (by decide)
    "a" "b" "d" "w" (mkRat 0 1)

/-- C7: after `extern foo(x)` is lowered (and `foo` never defined),
`def bar(y) foo(y)` lowers successfully.  Immediately after the extern the
call resolves against the current module, which holds the `foo`
declaration; after an intervening definition ships that module to the JIT,
the current module is empty and the call is satisfied by lazily lowering a
declaration of `foo` from the global prototype table into it (the shipped
module then shows `bar` with a body next to a block-less `foo`
declaration). -/
theorem c7_forward_reference :
    c7s1.cg.module.map (fun f => (f.name, f.blocks)) = [("foo", 0)] ∧
    (handleDefinition 100 "bar" ["y"] (Expr.call "foo" [Expr.var "y"]) c7s1).map Prod.snd =
      some true ∧
    c7s2.cg.module = [] ∧
    lookupA c7s2.cg.protos "foo" = some ["x"] ∧
    (handleDefinition 100 "bar" ["y"] (Expr.call "foo" [Expr.var "y"]) c7s2).map Prod.snd =
      some true ∧
    (c7s3.jit.getD 1 []).map (fun f => (f.name, f.blocks)) = [("bar", 1), ("foo", 0)] :=
  ⟨by decide, by decide, by decide, by decide, by decide, by decide⟩

set_option maxHeartbeats 1600000 in
/-- C8: REFUTED in its error-reporting half — lowering `f(1,2)` against the
one-parameter `f` does detect the arity mismatch before emitting anything
(no call instruction exists in the module at the moment of death, whatever
the stack depth), but it does not "fail with an arity error": the mismatch
branch calls `LogErrorV`, which never returns and prints nothing, so no
error value is produced and no diagnostic is surfaced. -/
theorem c8_arity_mismatch_crashes_without_call :
    ∀ fuel : Nat,
      (lowerArityMismatch fuel).isCrash = true ∧
      moduleCallFree (lowerArityMismatch fuel).stateOf.module = true ∧
      (lowerArityMismatch fuel).stateOf.diags = [] := by
  intro fuel
  rcases fuel with _ | n
  · exact ⟨by decide, by decide, by decide⟩
  · have hcg : sessAfterDefF.cg =
        ⟨[], [("f", ["x"])], [("x", IRValue.argVal "f" "x")], none, 1, []⟩ := by decide
    refine ⟨?_, ?_, ?_⟩ <;>
      simp [lowerArityMismatch, hcg, functionCodegen, exprCodegen, getFunction, findFn,
        getFn, lookupA, insertA, protoCodegen, modifyAt, emit, LogErrorV_eq_none,
        CgR.isCrash, CgR.stateOf, moduleCallFree, instrIsCall]

/-- C9: once `advance()` has returned the end-of-input token, every further
`advance()` returns it again with the lexer state unchanged — no characters
are read and no register changes — and this holds in particular when
end-of-input was reached inside a line comment (the comment branch stores
EOF in `LastChar` before falling through to the end-token return). -/
theorem c9_eof_idempotent (fuel fuel2 : Nat) (s s2 : LexState) (t : Int)
    (h : getNextToken fuel s = (t, s2)) (ht : t = -1) :
    getNextToken fuel2 s2 = (-1, s2) := by
  subst ht
  rw [getNextToken] at h
  rcases hg : gettok fuel s with ⟨t0, s0⟩
  rw [hg] at h
  simp at h
  rcases h with ⟨h1, h2⟩
  subst h1
  have hl0 : s0.lastChar = -1 := gettok_eof_state fuel s _ _ hg rfl
  have hl2 : s2.lastChar = -1 := by
    rw [← h2]
    exact hl0
  rw [getNextToken, gettok_at_eof fuel2 s2 hl2]
  have hcur : s2.curTok = -1 := by rw [← h2]
  show (-1, { s2 with curTok := -1 }) = (-1, s2)
  rw [← hcur]

/-- C9 witness: on the input "#ab" the end token is reached inside the line
comment; re-advancing from the resulting state keeps returning it with the
state unchanged. -/
theorem c9_witness :
    getNextToken 4 (initLex "#ab") = (-1, ⟨[], -1, "", mkRat 0 1, -1⟩) ∧
    getNextToken 7 ⟨[], -1, "", mkRat 0 1, -1⟩ = (-1, ⟨[], -1, "", mkRat 0 1, -1⟩) :=
  ⟨by decide, c9_eof_idempotent 4 7 (initLex "#ab") _ (-1) (by decide) rfl⟩

/-- C10: the prototype is indeed registered (overwriting the previous
binding of `f`) before the body is lowered and is never rolled back, as the
crash state of `def f(a) y` shows; but the claimed recovery — removing only
the partially built function and continuing so that a later call still
resolves — never happens: a body-lowering failure dies inside `LogErrorV`
before `eraseFromParent` can run, and indeed no expression lowering can
return the null result that the recovery path tests for. -/
theorem c10_proto_overwritten_but_recovery_unreachable :
    ∀ fuel : Nat,
      lookupA (lowerRedefBadBody fuel).stateOf.protos "f" = some ["a"] ∧
      (lowerRedefBadBody fuel).isCrash = true ∧
      (∀ e s, (exprCodegen fuel e s).isNullRet = false) := by
  intro fuel
  have hcg : sessAfterDefF.cg =
      ⟨[], [("f", ["x"])], [("x", IRValue.argVal "f" "x")], none, 1, []⟩ := by decide
  refine ⟨?_, ?_, fun e s => exprCodegen_no_nullret fuel e s⟩ <;>
    rcases fuel with _ | n
  · decide
  · simp [lowerRedefBadBody, hcg, functionCodegen, exprCodegen, getFunction, findFn, getFn,
      lookupA, insertA, protoCodegen, modifyAt, emit, LogErrorV_eq_none, CgR.stateOf]
  · decide
  · simp [lowerRedefBadBody, hcg, functionCodegen, exprCodegen, getFunction, findFn, getFn,
      lookupA, insertA, protoCodegen, modifyAt, emit, LogErrorV_eq_none, CgR.isCrash]

end Tylang
